import Mathlib

/-!
Verification of the feature-engineering and prediction pipeline of the
revenue-prediction service (`src/models/preprocessing.py`, `src/api/app.py`).

A single prediction request builds a one-row pandas DataFrame from the raw
input record (`pd.DataFrame([input_data])`), so we embed a record / DataFrame
row as an ordered association list from column name to cell value.  Cell
values are strings, exact numbers (pandas numeric cells; we use `ℚ`),
null (`None` / `NaN`), or signed infinities (the result of float division by
zero).  Fallible pandas operations (missing-column access raising `KeyError`,
`.str` accessor on a numeric column raising) are embedded in `Option`, with
`none` standing for a raised exception.
-/

namespace RevPred

/-- A pandas cell value: a string, an exact number, null (None/NaN), or a
signed infinity (`inf pos` with `pos = true` for `+∞`). -/
inductive Val where
  | str (s : String)
  | num (q : ℚ)
  | null
  | inf (pos : Bool)
deriving DecidableEq, Repr

/-- A one-row DataFrame: ordered columns, each with one cell. Columns built
from a JSON object / python dict are unique and keep insertion order. -/
abbrev Row := List (String × Val)

/-- Column lookup (`df[c]` on a one-row frame): first entry with the given
name, `none` when the column is absent. -/
def Row.get : Row → String → Option Val
  | [], _ => none
  | (c', v) :: r, c => if c' = c then some v else Row.get r c

/-- `c in df.columns`. -/
def Row.hasCol (r : Row) (c : String) : Bool := (r.get c).isSome

/-- Column assignment `df[c] = v`: replaces the cell of an existing column in
place, otherwise appends the new column at the end (pandas semantics on
frames with unique column names). -/
def Row.set : Row → String → Val → Row
  | [], c, v => [(c, v)]
  | (c', w) :: r, c, v => if c' = c then (c, v) :: r else (c', w) :: Row.set r c v

/-- Scalar addition as pandas performs it cell-wise: numbers add, NaN/None
propagates, infinities behave IEEE-like, `str + str` concatenates, and mixing
a string with a number raises (`none`). -/
def Val.add : Val → Val → Option Val
  | Val.num a, Val.num b => some (Val.num (a + b))
  | Val.str a, Val.str b => some (Val.str (a ++ b))
  | Val.null, Val.num _ => some Val.null
  | Val.num _, Val.null => some Val.null
  | Val.null, Val.null => some Val.null
  | Val.null, Val.inf _ => some Val.null
  | Val.inf _, Val.null => some Val.null
  | Val.inf p, Val.num _ => some (Val.inf p)
  | Val.num _, Val.inf p => some (Val.inf p)
  | Val.inf p, Val.inf q => some (if p = q then Val.inf p else Val.null)
  | _, _ => none

/-- Scalar true division as pandas performs it cell-wise: exact division for
a nonzero divisor, IEEE results for division by zero (`x/0 = ±∞`, `0/0 =
NaN`), NaN propagation, and a raise (`none`) when a string is involved. -/
def Val.div : Val → Val → Option Val
  | Val.num a, Val.num b =>
      some (if b = 0 then
              (if a = 0 then Val.null else Val.inf (0 < a))
            else Val.num (a / b))
  | Val.null, Val.num _ => some Val.null
  | Val.num _, Val.null => some Val.null
  | Val.null, Val.null => some Val.null
  | Val.null, Val.inf _ => some Val.null
  | Val.inf _, Val.null => some Val.null
  | Val.inf p, Val.num b => some (if b < 0 then Val.inf (!p) else Val.inf p)
  | Val.num _, Val.inf _ => some (Val.num 0)
  | Val.inf _, Val.inf _ => some Val.null
  | _, _ => none

/-- The Encoding Metadata Store entries that the pipeline reads.
`FeatureEngineer.__init__` does `self.metadata.get('feature_cols', [])`, so an
absent `feature_cols` entry and an empty list are both embedded as `[]`; the
four tables are guarded by `'...' in self.metadata`, hence `Option`. -/
structure Metadata where
  feature_cols : List String
  country_value_counts : Option (List (String × ℚ))
  device_family_value_counts : Option (List (String × ℚ))
  country_region_value_counts : Option (List (String × ℚ))
  country_mean_revenue : Option (List (String × ℚ))
deriving DecidableEq

/-- `series.map(table)`: a dict lookup keyed by strings; any non-string cell
(number, null) is absent from the table and yields `none` (pandas `NaN`,
before any `fillna`). -/
def lookupTable (t : List (String × ℚ)) (v : Val) : Option ℚ :=
  match v with
  | Val.str s => (t.find? (fun p => p.1 = s)).map (fun p => p.2)
  | _ => none

/-- `np.mean(list(country_mean_rev.values()))`: arithmetic mean of all values
of the table, NaN on an empty table. -/
def globalMean (t : List (String × ℚ)) : Val :=
  if t.isEmpty then Val.null
  else Val.num ((t.map (fun p => p.2)).sum / t.length)

/-- `FeatureEngineer.create_derived_features` on a one-row frame:
fill a null `event_3` with 0 when the column exists, then
`total_events = event_1 + event_2 + event_3` and
`event_i_ratio = event_i / (total_events + 1)`.  Reading a missing
`event_1`/`event_2`/`event_3` column raises `KeyError` (`none`). -/
def create_derived_features (df : Row) : Option Row := do
  let df := match df.get "event_3" with
    | some Val.null => df.set "event_3" (Val.num 0)
    | _ => df
  let e1 ← df.get "event_1"
  let e2 ← df.get "event_2"
  let e3 ← df.get "event_3"
  let s ← Val.add e1 e2
  let total ← Val.add s e3
  let df := df.set "total_events" total
  let denom ← Val.add total (Val.num 1)
  let r1 ← Val.div e1 denom
  let r2 ← Val.div e2 denom
  let r3 ← Val.div e3 denom
  pure (((df.set "event_1_ratio" r1).set "event_2_ratio" r2).set "event_3_ratio" r3)

/-- Python's `str.lower()` on the characters of the string. -/
def strLower (s : String) : String := String.mk (s.data.map Char.toLower)

/-- `df['platform'] = df['platform'].str.lower()`, guarded by
`'platform' in df.columns`: lower-cases a string cell, maps a null cell to
NaN, and raises (`none`) when the cell is numeric (`.str` accessor on a
non-string column). -/
def platformStep (df : Row) : Option Row :=
  match df.get "platform" with
  | some (Val.str s) => some (df.set "platform" (Val.str (strLower s)))
  | some Val.null => some (df.set "platform" Val.null)
  | some _ => none
  | none => some df

/-- One frequency encoding: `df[feat] = df[field].map(t).fillna(1)`, guarded
by the column and the metadata table both being present. -/
def freqStep (tbl : Option (List (String × ℚ))) (field feat : String) (df : Row) : Row :=
  match df.get field, tbl with
  | some v, some t => df.set feat (Val.num ((lookupTable t v).getD 1))
  | _, _ => df

/-- Target encoding for country:
`df['country_mean_revenue'] = df['country'].map(t).fillna(global_mean)` with
`global_mean = np.mean(list(t.values()))`, guarded like `freqStep`. -/
def targetStep (tbl : Option (List (String × ℚ))) (df : Row) : Row :=
  match df.get "country", tbl with
  | some v, some t =>
      df.set "country_mean_revenue"
        (match lookupTable t v with
         | some q => Val.num q
         | none => globalMean t)
  | _, _ => df

/-- The three frequency encodings followed by country target encoding, in
source order. -/
def encodeTables (m : Metadata) (df : Row) : Row :=
  targetStep m.country_mean_revenue
    (freqStep m.country_region_value_counts "country_region" "country_region_freq"
      (freqStep m.device_family_value_counts "device_family" "device_family_freq"
        (freqStep m.country_value_counts "country" "country_freq" df)))

/-- `FeatureEngineer.encode_categorical`: platform lower-casing, then the
three frequency encodings, then country target encoding, in source order. -/
def encode_categorical (m : Metadata) (df : Row) : Option Row :=
  (platformStep df).map (encodeTables m)

/-- `le.transform([x])[0] if x in le.classes_ else -1`: a string in the
vocabulary gets its index in `classes_` (sklearn label codes are positions in
the sorted class array), anything else — unseen string, null, number — gets
the sentinel `-1`. -/
def labelEncode (classes : List String) (v : Val) : Val :=
  match v with
  | Val.str s => if s ∈ classes then Val.num (classes.indexOf s) else Val.num (-1)
  | _ => Val.num (-1)

/-- The `source` label-encoding block of `FeatureEngineer.transform`: when
an encoder is supplied and the column exists, add `source_encoded`. -/
def sourceEncodeStep (ls : Option (List String)) (df : Row) : Row :=
  match ls, df.get "source" with
  | some classes, some v => df.set "source_encoded" (labelEncode classes v)
  | _, _ => df

/-- The `platform` label-encoding block of `FeatureEngineer.transform`;
`platform` is read after `encode_categorical` lower-cased it. -/
def platformEncodeStep (lp : Option (List String)) (df : Row) : Row :=
  match lp, df.get "platform" with
  | some classes, some v => df.set "platform_encoded" (labelEncode classes v)
  | _, _ => df

/-- The two label-encoding blocks of `FeatureEngineer.transform`, in source
order. -/
def applyLabelEncoders (ls lp : Option (List String)) (df : Row) : Row :=
  platformEncodeStep lp (sourceEncodeStep ls df)

/-- The `for col in self.feature_cols: if col not in df.columns: df[col] = 0`
loop of `FeatureEngineer.transform`. -/
def fillMissing (cols : List String) (df : Row) : Row :=
  cols.foldl (fun d c => if d.hasCol c then d else d.set c (Val.num 0)) df

/-- `df[cols]`: positional selection of the named columns, in order (all
present after `fillMissing`). -/
def Row.select (r : Row) (cols : List String) : Row :=
  cols.map (fun c => (c, (r.get c).getD Val.null))

/-- Everything `FeatureEngineer.transform` does before column selection:
derived features, categorical encoding, label encoding. -/
def engineer (m : Metadata) (ls lp : Option (List String)) (df : Row) : Option Row := do
  let d1 ← create_derived_features df
  let d2 ← encode_categorical m d1
  pure (applyLabelEncoders ls lp d2)

/-- `FeatureEngineer.transform`: engineer, then — only when `feature_cols` is
non-empty (`if self.feature_cols:`) — zero-fill missing columns and select
`df[self.feature_cols]`; with an empty `feature_cols` the engineered frame is
returned as-is. -/
def transform (m : Metadata) (df : Row) (ls lp : Option (List String)) : Option Row :=
  (engineer m ls lp df).map (fun d =>
    if m.feature_cols.isEmpty then d
    else (fillMissing m.feature_cols d).select m.feature_cols)

/-- `predict_revenue`: build the one-row frame, transform, call the model,
take the first scalar (`model.predict(X)[0]`, embedded as the `Option ℚ`
result of `modelPredict`), and clamp with `max(0.0, prediction)`.  `none`
stands for a raised exception anywhere in the chain. -/
def predict_revenue (input : Row) (modelPredict : Row → Option ℚ)
    (m : Metadata) (ls lp : Option (List String)) : Option ℚ := do
  let X ← transform m input ls lp
  let p ← modelPredict X
  pure (max 0 p)

/-- Python's `round(x, 6)` on exact values: round half to even at the sixth
decimal place. -/
def roundHalfEven (q : ℚ) : ℤ :=
  if q - ⌊q⌋ < 1 / 2 then ⌊q⌋
  else if 1 / 2 < q - ⌊q⌋ then ⌊q⌋ + 1
  else if ⌊q⌋ % 2 = 0 then ⌊q⌋ else ⌊q⌋ + 1

/-- Rounding to six decimal places as the batch endpoint does before
reporting a prediction. -/
def pyRound6 (q : ℚ) : ℚ := (roundHalfEven (q * 1000000) : ℚ) / 1000000

/-- One element of the `predictions` list of the batch endpoint: either
`{'input': u, 'predicted_revenue': r}` or `{'input': u, 'error': ...}`. -/
inductive BatchEntry where
  | pred (input : Row) (r : ℚ)
  | failed (input : Row)
deriving DecidableEq

/-- The per-record loop of the `batch_predict` endpoint: every record is
tried independently; success appends a rounded prediction, any exception
appends an error marker for that record. -/
def batch_predict (users : List Row) (modelPredict : Row → Option ℚ)
    (m : Metadata) (ls lp : Option (List String)) : List BatchEntry :=
  users.map (fun u =>
    match predict_revenue u modelPredict m ls lp with
    | some r => BatchEntry.pred u (pyRound6 r)
    | none => BatchEntry.failed u)

/-! Basic lemmas about rows. -/

theorem Row.get_set (r : Row) (c c2 : String) (v : Val) :
    (r.set c v).get c2 = if c = c2 then some v else r.get c2 := by
  induction r with
  | nil => simp [Row.set, Row.get]
  | cons p r ih =>
    obtain ⟨c', w⟩ := p
    by_cases h : c' = c
    · subst h
      by_cases h2 : c' = c2 <;> simp [Row.set, Row.get, h2]
    · by_cases h1 : c' = c2
      · subst h1
        have h2 : ¬(c = c') := fun hc => h hc.symm
        simp [Row.set, Row.get, h, ih, h2]
      · simp [Row.set, Row.get, h, h1, ih]

theorem Row.get_set_self (r : Row) (c : String) (v : Val) :
    (r.set c v).get c = some v := by
  simp [Row.get_set]

theorem Row.get_set_ne (r : Row) (c c2 : String) (v : Val) (h : c ≠ c2) :
    (r.set c v).get c2 = r.get c2 := by
  simp [Row.get_set, h]

/-! Lemmas about the encoding steps. -/

theorem platformStep_get_ne (df d : Row) (c : String) (hc : c ≠ "platform")
    (h : platformStep df = some d) : d.get c = df.get c := by
  unfold platformStep at h
  have hc2 : ("platform" : String) ≠ c := fun h2 => hc h2.symm
  rcases hv : df.get "platform" with _ | v
  · rw [hv] at h
    simp at h
    subst h; rfl
  · rw [hv] at h
    cases v <;> simp at h <;> (try subst h) <;> simp [Row.get_set_ne _ _ _ _ hc2]

theorem freqStep_get_ne (tbl : Option (List (String × ℚ))) (field feat c : String)
    (df : Row) (hc : feat ≠ c) :
    (freqStep tbl field feat df).get c = df.get c := by
  unfold freqStep
  rcases df.get field with _ | v <;> rcases tbl with _ | t <;>
    simp [Row.get_set_ne _ _ _ _ hc]

theorem freqStep_get_feat (tbl : Option (List (String × ℚ))) (t : List (String × ℚ))
    (field feat : String) (v : Val) (df : Row)
    (ht : tbl = some t) (hf : df.get field = some v) :
    (freqStep tbl field feat df).get feat =
      some (Val.num ((lookupTable t v).getD 1)) := by
  unfold freqStep
  rw [ht, hf]
  simp [Row.get_set_self]

theorem targetStep_get_ne (tbl : Option (List (String × ℚ))) (c : String)
    (df : Row) (hc : c ≠ "country_mean_revenue") :
    (targetStep tbl df).get c = df.get c := by
  unfold targetStep
  have hc2 : ("country_mean_revenue" : String) ≠ c := fun h2 => hc h2.symm
  rcases df.get "country" with _ | v <;> rcases tbl with _ | t <;>
    simp [Row.get_set_ne _ _ _ _ hc2]

theorem targetStep_get_cmr (tbl : Option (List (String × ℚ))) (t : List (String × ℚ))
    (v : Val) (df : Row) (ht : tbl = some t) (hf : df.get "country" = some v) :
    (targetStep tbl df).get "country_mean_revenue" =
      some (match lookupTable t v with
            | some q => Val.num q
            | none => globalMean t) := by
  unfold targetStep
  rw [hf, ht]
  simp [Row.get_set_self]

theorem encodeTables_country_freq (m : Metadata) (df : Row) (t : List (String × ℚ)) (v : Val)
    (ht : m.country_value_counts = some t) (hf : df.get "country" = some v) :
    (encodeTables m df).get "country_freq" = some (Val.num ((lookupTable t v).getD 1)) := by
  unfold encodeTables
  rw [targetStep_get_ne _ _ _ (by decide), freqStep_get_ne _ _ _ _ _ (by decide),
    freqStep_get_ne _ _ _ _ _ (by decide), freqStep_get_feat _ t _ _ v _ ht hf]

theorem encodeTables_device_freq (m : Metadata) (df : Row) (t : List (String × ℚ)) (v : Val)
    (ht : m.device_family_value_counts = some t) (hf : df.get "device_family" = some v) :
    (encodeTables m df).get "device_family_freq" = some (Val.num ((lookupTable t v).getD 1)) := by
  unfold encodeTables
  rw [targetStep_get_ne _ _ _ (by decide), freqStep_get_ne _ _ _ _ _ (by decide),
    freqStep_get_feat _ t _ _ v _ ht
      (by rw [freqStep_get_ne _ _ _ _ _ (by decide)]; exact hf)]

theorem encodeTables_region_freq (m : Metadata) (df : Row) (t : List (String × ℚ)) (v : Val)
    (ht : m.country_region_value_counts = some t) (hf : df.get "country_region" = some v) :
    (encodeTables m df).get "country_region_freq" = some (Val.num ((lookupTable t v).getD 1)) := by
  unfold encodeTables
  rw [targetStep_get_ne _ _ _ (by decide),
    freqStep_get_feat _ t _ _ v _ ht
      (by rw [freqStep_get_ne _ _ _ _ _ (by decide), freqStep_get_ne _ _ _ _ _ (by decide)]
          exact hf)]

theorem encodeTables_cmr (m : Metadata) (df : Row) (t : List (String × ℚ)) (v : Val)
    (ht : m.country_mean_revenue = some t) (hf : df.get "country" = some v) :
    (encodeTables m df).get "country_mean_revenue" =
      some (match lookupTable t v with
            | some q => Val.num q
            | none => globalMean t) := by
  unfold encodeTables
  rw [targetStep_get_cmr _ t v _ ht
    (by rw [freqStep_get_ne _ _ _ _ _ (by decide), freqStep_get_ne _ _ _ _ _ (by decide),
          freqStep_get_ne _ _ _ _ _ (by decide)]
        exact hf)]

theorem encodeTables_get_platform (m : Metadata) (df : Row) :
    (encodeTables m df).get "platform" = df.get "platform" := by
  unfold encodeTables
  rw [targetStep_get_ne _ _ _ (by decide), freqStep_get_ne _ _ _ _ _ (by decide),
    freqStep_get_ne _ _ _ _ _ (by decide), freqStep_get_ne _ _ _ _ _ (by decide)]

/-! Lemmas about label encoding. -/

theorem sourceEncodeStep_get_ne (ls : Option (List String)) (df : Row) (c : String)
    (hc : c ≠ "source_encoded") :
    (sourceEncodeStep ls df).get c = df.get c := by
  unfold sourceEncodeStep
  rcases ls with _ | cl <;> rcases hs : df.get "source" with _ | v <;>
    simp [Row.get_set_ne _ _ _ _ (fun h => hc h.symm)]

theorem platformEncodeStep_get_ne (lp : Option (List String)) (df : Row) (c : String)
    (hc : c ≠ "platform_encoded") :
    (platformEncodeStep lp df).get c = df.get c := by
  unfold platformEncodeStep
  rcases lp with _ | cl <;> rcases hp : df.get "platform" with _ | v <;>
    simp [Row.get_set_ne _ _ _ _ (fun h => hc h.symm)]

theorem applyLabelEncoders_platform_encoded (ls : Option (List String))
    (classes : List String) (df : Row) (v : Val) (h : df.get "platform" = some v) :
    (applyLabelEncoders ls (some classes) df).get "platform_encoded" =
      some (labelEncode classes v) := by
  unfold applyLabelEncoders
  have hp : (sourceEncodeStep ls df).get "platform" = some v := by
    rw [sourceEncodeStep_get_ne _ _ _ (by decide)]
    exact h
  unfold platformEncodeStep
  rw [hp]
  exact Row.get_set_self _ _ _

theorem applyLabelEncoders_source_encoded (lp : Option (List String))
    (classes : List String) (df : Row) (v : Val) (h : df.get "source" = some v) :
    (applyLabelEncoders (some classes) lp df).get "source_encoded" =
      some (labelEncode classes v) := by
  unfold applyLabelEncoders
  have hs : sourceEncodeStep (some classes) df = df.set "source_encoded" (labelEncode classes v) := by
    unfold sourceEncodeStep
    rw [h]
  rw [hs, platformEncodeStep_get_ne _ _ _ (by decide), Row.get_set_self]

/-! Evaluation of the derived-feature computation. -/

/-- The cell `x / (T + 1)` produces: exact quotient for `T ≠ -1`, and the
IEEE division-by-zero results when `T = -1`. -/
def ratioVal (x T : ℚ) : Val :=
  if T + 1 = 0 then (if x = 0 then Val.null else Val.inf (0 < x))
  else Val.num (x / (T + 1))

/-- Closed form of `create_derived_features` on a record whose three event
cells are numbers. -/
theorem create_derived_eval (df : Row) (a b c : ℚ)
    (h1 : df.get "event_1" = some (Val.num a)) (h2 : df.get "event_2" = some (Val.num b))
    (h3 : df.get "event_3" = some (Val.num c)) :
    create_derived_features df =
      some ((((df.set "total_events" (Val.num (a + b + c))).set
        "event_1_ratio" (ratioVal a (a + b + c))).set
        "event_2_ratio" (ratioVal b (a + b + c))).set
        "event_3_ratio" (ratioVal c (a + b + c))) := by
  unfold create_derived_features
  rw [h3]
  simp only [h1, h2, h3, Option.bind_eq_bind, Option.some_bind, Val.add, Val.div, ratioVal]
  rfl

/-- `fillna(0)` on a null `event_3` first replaces the cell by `0`; the rest
of the computation then runs on the updated record. -/
theorem create_derived_fillna (df : Row) (h3 : df.get "event_3" = some Val.null) :
    create_derived_features df = create_derived_features (df.set "event_3" (Val.num 0)) := by
  conv_lhs => unfold create_derived_features
  conv_rhs => unfold create_derived_features
  rw [h3, Row.get_set_self]

/-! Lemmas about column alignment. -/

theorem fillMissing_get (cols : List String) (df : Row) (c : String) :
    (fillMissing cols df).get c =
      match df.get c with
      | some v => some v
      | none => if c ∈ cols then some (Val.num 0) else none := by
  induction cols generalizing df with
  | nil =>
    simp only [fillMissing, List.foldl_nil]
    rcases df.get c with _ | v <;> simp
  | cons c0 cs ih =>
    simp only [fillMissing, List.foldl_cons] at ih ⊢
    by_cases h0 : df.hasCol c0
    · rw [if_pos h0, ih]
      rcases hv : df.get c with _ | v
      · by_cases hc : c = c0
        · subst hc
          simp [Row.hasCol, hv] at h0
        · simp [hc]
      · simp
    · rw [if_neg h0, ih]
      by_cases hc : c = c0
      · subst hc
        have : df.get c = none := by
          simp only [Row.hasCol] at h0
          exact Option.not_isSome_iff_eq_none.mp h0
        simp [this, Row.get_set_self]
      · rw [Row.get_set_ne _ _ _ _ (fun h => hc h.symm)]
        rcases df.get c with _ | v
        · simp [hc]
        · simp

theorem select_map_fst (r : Row) (cols : List String) :
    (r.select cols).map Prod.fst = cols := by
  induction cols with
  | nil => rfl
  | cons c cs ih => simp [Row.select] at ih ⊢; exact ih

theorem select_mem (r : Row) (cols : List String) (c : String) (h : c ∈ cols) :
    (c, (r.get c).getD Val.null) ∈ r.select cols := by
  simp only [Row.select, List.mem_map]
  exact ⟨c, h, rfl⟩

/-! Lemmas about prediction. -/

theorem predict_revenue_nonneg (input : Row) (modelPredict : Row → Option ℚ)
    (m : Metadata) (ls lp : Option (List String)) (r : ℚ)
    (h : predict_revenue input modelPredict m ls lp = some r) : 0 ≤ r := by
  unfold predict_revenue at h
  rcases hX : transform m input ls lp with _ | X <;> rw [hX] at h
  · simp at h
  · simp only [Option.bind_eq_bind, Option.some_bind] at h
    rcases hp : modelPredict X with _ | p <;> rw [hp] at h
    · simp at h
    · simp only [Option.some_bind, pure, Option.some.injEq] at h
      rw [← h]
      exact le_max_left 0 p

theorem roundHalfEven_nonneg (q : ℚ) (h : 0 ≤ q) : 0 ≤ roundHalfEven q := by
  unfold roundHalfEven
  have hf : (0 : ℤ) ≤ ⌊q⌋ := Int.floor_nonneg.mpr h
  split
  · exact hf
  · split
    · omega
    · split <;> omega

theorem pyRound6_nonneg (q : ℚ) (h : 0 ≤ q) : 0 ≤ pyRound6 q := by
  unfold pyRound6
  have h1 : (0 : ℚ) ≤ (roundHalfEven (q * 1000000) : ℚ) := by
    exact_mod_cast roundHalfEven_nonneg _ (by positivity)
  positivity

/-! Claim theorems. -/

/-- C9: for every finite scalar returned by the model, including negative
values, the single-record prediction returns `max(0.0, prediction)` of the
model's first output, so the predicted revenue delivered to the caller is
never negative. -/
theorem claim_C9_clamp (input : Row) (modelPredict : Row → Option ℚ) (m : Metadata)
    (ls lp : Option (List String)) (X : Row) (p : ℚ)
    (hX : transform m input ls lp = some X) (hp : modelPredict X = some p) :
    predict_revenue input modelPredict m ls lp = some (max 0 p) ∧ (0 : ℚ) ≤ max 0 p := by
  constructor
  · unfold predict_revenue
    rw [hX]
    simp [hp]
  · exact le_max_left 0 p

/-- C10: with an absent or empty `feature_cols`, `transform` performs neither
zero-filling nor positional selection and returns the engineered frame with
whatever columns it produced, so the fixed-width output contract needs
`feature_cols` to be non-empty. -/
theorem claim_C10_empty_feature_cols (m : Metadata) (df : Row)
    (ls lp : Option (List String)) (he : m.feature_cols = []) :
    transform m df ls lp = engineer m ls lp df := by
  unfold transform
  rw [he]
  rcases engineer m ls lp df with _ | d <;> rfl

/-- C4: batch prediction maps each record independently: the result has the
same length and order, the i-th entry is the per-record outcome of record i
alone — a rounded non-negative prediction on success, an error marker on
failure — so one record's failure cannot abort or alter the others. -/
theorem claim_C4_batch_isolation (users : List Row) (modelPredict : Row → Option ℚ)
    (m : Metadata) (ls lp : Option (List String)) :
    (batch_predict users modelPredict m ls lp).length = users.length
    ∧ (∀ i : ℕ, ∀ u : Row, users[i]? = some u →
        (batch_predict users modelPredict m ls lp)[i]? =
          some (match predict_revenue u modelPredict m ls lp with
                | some r => BatchEntry.pred u (pyRound6 r)
                | none => BatchEntry.failed u))
    ∧ (∀ u r, BatchEntry.pred u r ∈ batch_predict users modelPredict m ls lp → 0 ≤ r) := by
  refine ⟨List.length_map _ _, fun i u hu => ?_, fun u r hm => ?_⟩
  · unfold batch_predict
    rw [List.getElem?_map, hu]
    rfl
  · unfold batch_predict at hm
    rw [List.mem_map] at hm
    obtain ⟨u', _, he⟩ := hm
    rcases hp : predict_revenue u' modelPredict m ls lp with _ | r' <;> rw [hp] at he
    · exact absurd he (by simp)
    · simp only [BatchEntry.pred.injEq] at he
      rw [← he.2]
      exact pyRound6_nonneg _ (predict_revenue_nonneg _ _ _ _ _ _ hp)

/-! Witness inputs. -/

def c9input : Row := [("event_1", Val.num 2), ("event_2", Val.num 3), ("event_3", Val.num 4)]

def c9meta : Metadata := Metadata.mk ["event_1"] none none none none

def c9model : Row → Option ℚ := fun _ => some (-5)

/-- C9 witness: a model returning the negative scalar `-5` on a concrete
record is clamped to `max 0 (-5)`. -/
theorem claim_C9_witness :
    predict_revenue c9input c9model c9meta none none = some (max 0 (-5))
    ∧ (0 : ℚ) ≤ max 0 (-5) :=
  claim_C9_clamp c9input c9model c9meta none none [("event_1", Val.num 2)] (-5) rfl rfl

def c10meta : Metadata := Metadata.mk [] none none none none

def c10input : Row := [("event_1", Val.num 0), ("event_2", Val.num 0), ("event_3", Val.num 0)]

/-- C10 witness: with empty `feature_cols`, `transform` returns the full
engineered frame of a concrete record — seven columns, no selection. -/
theorem claim_C10_witness :
    c10meta.feature_cols = []
    ∧ transform c10meta c10input none none = engineer c10meta none none c10input
    ∧ engineer c10meta none none c10input =
        some [("event_1", Val.num 0), ("event_2", Val.num 0), ("event_3", Val.num 0),
          ("total_events", Val.num 0), ("event_1_ratio", Val.num 0),
          ("event_2_ratio", Val.num 0), ("event_3_ratio", Val.num 0)] := by
  refine ⟨rfl, claim_C10_empty_feature_cols c10meta c10input none none rfl, ?_⟩
  simp only [c10input, c10meta, engineer, create_derived_features, encode_categorical,
    platformStep, encodeTables, freqStep, targetStep, applyLabelEncoders, sourceEncodeStep,
    platformEncodeStep, Row.get, Row.set, Val.add, Val.div, Option.bind_eq_bind,
    Option.some_bind, Option.map_some, reduceIte, String.reduceEq]
  norm_num
  simp only [Row.get, reduceIte, String.reduceEq]
  refine ⟨_, rfl, ?_⟩
  simp only [encodeTables, freqStep, targetStep, Row.get, reduceIte, String.reduceEq]

def c4meta : Metadata := Metadata.mk ["event_1"] none none none none

def c4u1 : Row := [("event_1", Val.num 1), ("event_2", Val.num 0), ("event_3", Val.num 0)]

def c4u2 : Row := [("event_1", Val.num 2), ("event_2", Val.num 0), ("event_3", Val.num 0)]

def c4u3 : Row := [("event_1", Val.num 3), ("event_2", Val.num 0), ("event_3", Val.num 0)]

def c4model : Row → Option ℚ := fun X =>
  match X.get "event_1" with
  | some (Val.num q) => if q = 2 then none else some (-4)
  | _ => none

/-- C4 witness: a concrete batch of three records whose middle record hits a
model-invocation failure yields three entries in order — prediction, error
marker, prediction. -/
theorem claim_C4_witness :
    (batch_predict [c4u1, c4u2, c4u3] c4model c4meta none none).length = 3
    ∧ (batch_predict [c4u1, c4u2, c4u3] c4model c4meta none none)[0]? =
        some (BatchEntry.pred c4u1 0)
    ∧ (batch_predict [c4u1, c4u2, c4u3] c4model c4meta none none)[1]? =
        some (BatchEntry.failed c4u2)
    ∧ (batch_predict [c4u1, c4u2, c4u3] c4model c4meta none none)[2]? =
        some (BatchEntry.pred c4u3 0) := by
  have h := claim_C4_batch_isolation [c4u1, c4u2, c4u3] c4model c4meta none none
  have hp1 : predict_revenue c4u1 c4model c4meta none none = some 0 := by
    have he : predict_revenue c4u1 c4model c4meta none none = some (max 0 (-4)) := rfl
    rw [he]
    norm_num [max_def]
  have hp2 : predict_revenue c4u2 c4model c4meta none none = none := rfl
  have hp3 : predict_revenue c4u3 c4model c4meta none none = some 0 := by
    have he : predict_revenue c4u3 c4model c4meta none none = some (max 0 (-4)) := rfl
    rw [he]
    norm_num [max_def]
  have hr0 : pyRound6 0 = 0 := by
    norm_num [pyRound6, roundHalfEven, Int.floor_zero]
  have h0 := h.2.1 0 c4u1 rfl
  rw [hp1] at h0
  have h1 := h.2.1 1 c4u2 rfl
  rw [hp2] at h1
  have h2 := h.2.1 2 c4u3 rfl
  rw [hp3] at h2
  refine ⟨h.1, ?_, h1, ?_⟩
  · simpa only [hr0] using h0
  · simpa only [hr0] using h2

/-- C1: with a non-empty `feature_cols`, every output of `transform` has
exactly the columns of `feature_cols`, in that order, and any named column
the engineering steps did not produce carries the default value `0`. -/
theorem claim_C1_output_alignment (m : Metadata) (df : Row) (ls lp : Option (List String))
    (out : Row) (hne : m.feature_cols ≠ []) (htr : transform m df ls lp = some out) :
    out.map Prod.fst = m.feature_cols
    ∧ ∀ c ∈ m.feature_cols,
        (engineer m ls lp df).bind (fun d => d.get c) = none → (c, Val.num 0) ∈ out := by
  unfold transform at htr
  rcases he : engineer m ls lp df with _ | d <;> rw [he] at htr
  · simp at htr
  · simp only [Option.map_some', Option.some.injEq] at htr
    have hb : m.feature_cols.isEmpty = false := by
      rcases hE : m.feature_cols.isEmpty
      · rfl
      · exact absurd (List.isEmpty_iff.mp hE) hne
    rw [hb] at htr
    simp only [Bool.false_eq_true, if_false] at htr
    subst htr
    constructor
    · exact select_map_fst _ _
    · intro c hc hnone
      simp only [Option.some_bind] at hnone
      have hfr : (fillMissing m.feature_cols d).get c = some (Val.num 0) := by
        rw [fillMissing_get, hnone]
        simp [hc]
      have hm := select_mem (fillMissing m.feature_cols d) m.feature_cols c hc
      rw [hfr] at hm
      exact hm

def c1meta : Metadata := Metadata.mk ["event_1", "extra_feature"] none none none none

def c1input : Row := [("event_1", Val.num 2), ("event_2", Val.num 3), ("event_3", Val.num 4)]

def c1out : Row := [("event_1", Val.num 2), ("extra_feature", Val.num 0)]

/-- C1 witness: on a concrete record, the output columns are exactly
`["event_1", "extra_feature"]` in order and the unproduced column
`extra_feature` is filled with `0`. -/
theorem claim_C1_witness :
    c1meta.feature_cols ≠ []
    ∧ transform c1meta c1input none none = some c1out
    ∧ c1out.map Prod.fst = c1meta.feature_cols
    ∧ ("extra_feature", Val.num 0) ∈ c1out := by
  have h := claim_C1_output_alignment c1meta c1input none none c1out (by decide) rfl
  exact ⟨by decide, rfl, h.1, h.2 "extra_feature" (by decide) rfl⟩

/-- C2 counterexample: on the record with `event_1 = -1`, `event_2 = 0`,
`event_3 = 0` the denominator `total_events + 1` is zero and
`event_1_ratio` is `-∞`, not a finite number — the claimed "never divides
by zero / always finite" fails. -/
theorem claim_C2_counterexample :
    (create_derived_features
        [("event_1", Val.num (-1)), ("event_2", Val.num 0), ("event_3", Val.num 0)]).bind
      (fun d => d.get "event_1_ratio") = some (Val.inf false) := by
  simp only [create_derived_features, Row.get, Row.set, Val.add, Val.div,
    Option.bind_eq_bind, Option.some_bind, reduceIte, String.reduceEq]
  norm_num
  simp only [Row.get, reduceIte, String.reduceEq]

/-- C2 (amended): the `+1` smoothing makes the denominator nonzero and all
three ratios finite whenever `total_events` is non-negative — in particular
when it is zero — and negative inputs flow through the same arithmetic with
no special-casing; but when negative counts sum to `total_events = -1` the
denominator is zero and the ratios are not finite. -/
theorem claim_C2_amended_finite_ratios (df : Row) (a b c : ℚ)
    (h1 : df.get "event_1" = some (Val.num a)) (h2 : df.get "event_2" = some (Val.num b))
    (h3 : df.get "event_3" = some (Val.num c)) (htot : 0 ≤ a + b + c) :
    a + b + c + 1 ≠ 0
    ∧ (create_derived_features df).bind (fun d => d.get "event_1_ratio")
        = some (Val.num (a / (a + b + c + 1)))
    ∧ (create_derived_features df).bind (fun d => d.get "event_2_ratio")
        = some (Val.num (b / (a + b + c + 1)))
    ∧ (create_derived_features df).bind (fun d => d.get "event_3_ratio")
        = some (Val.num (c / (a + b + c + 1))) := by
  have hpos : (0 : ℚ) < a + b + c + 1 := by linarith
  have hden : a + b + c + 1 ≠ 0 := ne_of_gt hpos
  rw [create_derived_eval df a b c h1 h2 h3]
  simp only [Option.some_bind]
  refine ⟨hden, ?_, ?_, ?_⟩
  · rw [Row.get_set_ne _ _ _ _ (by decide), Row.get_set_ne _ _ _ _ (by decide),
      Row.get_set_self]
    simp [ratioVal, hden]
  · rw [Row.get_set_ne _ _ _ _ (by decide), Row.get_set_self]
    simp [ratioVal, hden]
  · rw [Row.get_set_self]
    simp [ratioVal, hden]

/-- C2 witness: on the record `(1, 2, 3)` the denominator is `7 ≠ 0` and the
three ratios are the finite numbers `1/7`, `2/7`, `3/7`. -/
theorem claim_C2_witness :
    (0 : ℚ) ≤ 1 + 2 + 3
    ∧ ((create_derived_features
          [("event_1", Val.num 1), ("event_2", Val.num 2), ("event_3", Val.num 3)]).bind
        (fun d => d.get "event_1_ratio") = some (Val.num (1 / 7)))
    ∧ ((create_derived_features
          [("event_1", Val.num 1), ("event_2", Val.num 2), ("event_3", Val.num 3)]).bind
        (fun d => d.get "event_2_ratio") = some (Val.num (2 / 7)))
    ∧ ((create_derived_features
          [("event_1", Val.num 1), ("event_2", Val.num 2), ("event_3", Val.num 3)]).bind
        (fun d => d.get "event_3_ratio") = some (Val.num (3 / 7))) := by
  have h := claim_C2_amended_finite_ratios
    [("event_1", Val.num 1), ("event_2", Val.num 2), ("event_3", Val.num 3)]
    1 2 3 rfl rfl rfl (by norm_num)
  refine ⟨by norm_num, ?_, ?_, ?_⟩
  · rw [h.2.1]
    norm_num
  · rw [h.2.2.1]
    norm_num
  · rw [h.2.2.2]
    norm_num

/-- C3 counterexample: a record with no `event_3` column at all makes
`create_derived_features` raise a `KeyError` (result `none`) instead of
normalizing the missing value to `0` and producing `total_events`. -/
theorem claim_C3_counterexample :
    create_derived_features [("event_1", Val.num 3), ("event_2", Val.num 4)] = none := by
  decide

/-- C3 (amended): when the `event_3` column is present — with a numeric or a
null cell — derived-feature computation succeeds and `total_events` is the
sum of the three events with a null `event_3` normalized to `0`, including
negative components; a record whose `event_3` column is absent instead makes
the computation raise. -/
theorem claim_C3_amended_total_events (df : Row) (a b : ℚ)
    (h1 : df.get "event_1" = some (Val.num a)) (h2 : df.get "event_2" = some (Val.num b)) :
    (∀ c : ℚ, df.get "event_3" = some (Val.num c) →
        (create_derived_features df).bind (fun d => d.get "total_events")
          = some (Val.num (a + b + c)))
    ∧ (df.get "event_3" = some Val.null →
        (create_derived_features df).bind (fun d => d.get "total_events")
          = some (Val.num (a + b + 0))) := by
  constructor
  · intro c h3
    rw [create_derived_eval df a b c h1 h2 h3]
    simp only [Option.some_bind]
    rw [Row.get_set_ne _ _ _ _ (by decide), Row.get_set_ne _ _ _ _ (by decide),
      Row.get_set_ne _ _ _ _ (by decide), Row.get_set_self]
  · intro h3
    rw [create_derived_fillna df h3]
    have h1' : (df.set "event_3" (Val.num 0)).get "event_1" = some (Val.num a) := by
      rw [Row.get_set_ne _ _ _ _ (by decide)]
      exact h1
    have h2' : (df.set "event_3" (Val.num 0)).get "event_2" = some (Val.num b) := by
      rw [Row.get_set_ne _ _ _ _ (by decide)]
      exact h2
    rw [create_derived_eval _ a b 0 h1' h2' (Row.get_set_self _ _ _)]
    simp only [Option.some_bind]
    rw [Row.get_set_ne _ _ _ _ (by decide), Row.get_set_ne _ _ _ _ (by decide),
      Row.get_set_ne _ _ _ _ (by decide), Row.get_set_self]

/-- C3 witness: on a record with `event_1 = 5`, `event_2 = 6` and a null
`event_3`, the computation succeeds with `total_events = 11`. -/
theorem claim_C3_witness :
    (create_derived_features
        [("event_1", Val.num 5), ("event_2", Val.num 6), ("event_3", Val.null)]).bind
      (fun d => d.get "total_events") = some (Val.num 11) := by
  have h := (claim_C3_amended_total_events
    [("event_1", Val.num 5), ("event_2", Val.num 6), ("event_3", Val.null)]
    5 6 rfl rfl).2 rfl
  rw [h]
  norm_num

/-- C7 counterexample: the record `(-1, 1, 0)` has `total_events = 0` but
`event_1_ratio = -1/(0+1) = -1 ≠ 0`, refuting "`total_events = 0` implies
all ratios are exactly 0". -/
theorem claim_C7_counterexample :
    ((create_derived_features
        [("event_1", Val.num (-1)), ("event_2", Val.num 1), ("event_3", Val.num 0)]).bind
      (fun d => d.get "total_events") = some (Val.num 0))
    ∧ ((create_derived_features
        [("event_1", Val.num (-1)), ("event_2", Val.num 1), ("event_3", Val.num 0)]).bind
      (fun d => d.get "event_1_ratio") = some (Val.num (-1))) := by
  constructor <;>
    (simp only [create_derived_features, Row.get, Row.set, Val.add, Val.div,
      Option.bind_eq_bind, Option.some_bind, reduceIte, String.reduceEq]
     norm_num
     simp only [Row.get, reduceIte, String.reduceEq])

/-- C7 (amended): each ratio equals `event_i / (total_events + 1)` whenever
the denominator is nonzero (`total_events ≠ -1`), and all three ratios are
exactly `0` when `total_events = 0` and the event counts are non-negative
(equivalently, all three are zero); with negative counts `total_events = 0`
no longer forces zero ratios. -/
theorem claim_C7_amended_ratio_values (df : Row) (a b c : ℚ)
    (h1 : df.get "event_1" = some (Val.num a)) (h2 : df.get "event_2" = some (Val.num b))
    (h3 : df.get "event_3" = some (Val.num c)) :
    (a + b + c ≠ -1 →
      ((create_derived_features df).bind (fun d => d.get "event_1_ratio")
          = some (Val.num (a / (a + b + c + 1)))
        ∧ (create_derived_features df).bind (fun d => d.get "event_2_ratio")
          = some (Val.num (b / (a + b + c + 1)))
        ∧ (create_derived_features df).bind (fun d => d.get "event_3_ratio")
          = some (Val.num (c / (a + b + c + 1)))))
    ∧ (a + b + c = 0 → 0 ≤ a → 0 ≤ b → 0 ≤ c →
      ((create_derived_features df).bind (fun d => d.get "event_1_ratio")
          = some (Val.num 0)
        ∧ (create_derived_features df).bind (fun d => d.get "event_2_ratio")
          = some (Val.num 0)
        ∧ (create_derived_features df).bind (fun d => d.get "event_3_ratio")
          = some (Val.num 0))) := by
  have heval := create_derived_eval df a b c h1 h2 h3
  constructor
  · intro hne
    have hden : a + b + c + 1 ≠ 0 := by
      intro h0
      exact hne (by linarith)
    rw [heval]
    simp only [Option.some_bind]
    refine ⟨?_, ?_, ?_⟩
    · rw [Row.get_set_ne _ _ _ _ (by decide), Row.get_set_ne _ _ _ _ (by decide),
        Row.get_set_self]
      simp [ratioVal, hden]
    · rw [Row.get_set_ne _ _ _ _ (by decide), Row.get_set_self]
      simp [ratioVal, hden]
    · rw [Row.get_set_self]
      simp [ratioVal, hden]
  · intro hz ha hb hc
    have ha0 : a = 0 := by linarith
    have hb0 : b = 0 := by linarith
    have hc0 : c = 0 := by linarith
    subst ha0 hb0 hc0
    rw [heval]
    simp only [Option.some_bind]
    have hv : ratioVal 0 (0 + 0 + 0) = Val.num 0 := by
      simp only [ratioVal]
      norm_num
    refine ⟨?_, ?_, ?_⟩
    · rw [Row.get_set_ne _ _ _ _ (by decide), Row.get_set_ne _ _ _ _ (by decide),
        Row.get_set_self, hv]
    · rw [Row.get_set_ne _ _ _ _ (by decide), Row.get_set_self, hv]
    · rw [Row.get_set_self, hv]

/-- C7 witness: on the all-zero record `total_events` is `0` and all three
ratios evaluate to exactly `0`. -/
theorem claim_C7_witness :
    (0 : ℚ) + 0 + 0 = 0
    ∧ ((create_derived_features
          [("event_1", Val.num 0), ("event_2", Val.num 0), ("event_3", Val.num 0)]).bind
        (fun d => d.get "event_1_ratio") = some (Val.num 0))
    ∧ ((create_derived_features
          [("event_1", Val.num 0), ("event_2", Val.num 0), ("event_3", Val.num 0)]).bind
        (fun d => d.get "event_2_ratio") = some (Val.num 0))
    ∧ ((create_derived_features
          [("event_1", Val.num 0), ("event_2", Val.num 0), ("event_3", Val.num 0)]).bind
        (fun d => d.get "event_3_ratio") = some (Val.num 0)) := by
  have h := (claim_C7_amended_ratio_values
    [("event_1", Val.num 0), ("event_2", Val.num 0), ("event_3", Val.num 0)]
    0 0 0 rfl rfl rfl).2 (by norm_num) le_rfl le_rfl le_rfl
  exact ⟨by norm_num, h.1, h.2.1, h.2.2⟩

/-! Helper lemmas for the encoding claims. -/

theorem encode_bind {α : Type} (m : Metadata) (df d1 : Row) (f : Row → Option α)
    (hp : platformStep df = some d1) :
    (encode_categorical m df).bind f = f (encodeTables m d1) := by
  unfold encode_categorical
  rw [hp]
  rfl

theorem platformStep_of_encode_isSome (m : Metadata) (df : Row)
    (hs : (encode_categorical m df).isSome = true) : ∃ d1, platformStep df = some d1 := by
  unfold encode_categorical at hs
  rcases h : platformStep df with _ | d1
  · rw [h] at hs
    simp at hs
  · exact ⟨d1, rfl⟩

/-- C8: for each of `country`, `device_family`, `country_region`, the
`<field>_freq` feature equals the training-time count stored in the
corresponding table when the raw string is a key of it, and exactly `1`
when the string is absent. -/
theorem claim_C8_frequency_encoding (m : Metadata) (df : Row)
    (hs : (encode_categorical m df).isSome = true) :
    (∀ t s q, m.country_value_counts = some t → df.get "country" = some (Val.str s) →
        lookupTable t (Val.str s) = some q →
        (encode_categorical m df).bind (fun d => d.get "country_freq") = some (Val.num q))
    ∧ (∀ t s, m.country_value_counts = some t → df.get "country" = some (Val.str s) →
        lookupTable t (Val.str s) = none →
        (encode_categorical m df).bind (fun d => d.get "country_freq") = some (Val.num 1))
    ∧ (∀ t s q, m.device_family_value_counts = some t →
        df.get "device_family" = some (Val.str s) →
        lookupTable t (Val.str s) = some q →
        (encode_categorical m df).bind (fun d => d.get "device_family_freq")
          = some (Val.num q))
    ∧ (∀ t s, m.device_family_value_counts = some t →
        df.get "device_family" = some (Val.str s) →
        lookupTable t (Val.str s) = none →
        (encode_categorical m df).bind (fun d => d.get "device_family_freq")
          = some (Val.num 1))
    ∧ (∀ t s q, m.country_region_value_counts = some t →
        df.get "country_region" = some (Val.str s) →
        lookupTable t (Val.str s) = some q →
        (encode_categorical m df).bind (fun d => d.get "country_region_freq")
          = some (Val.num q))
    ∧ (∀ t s, m.country_region_value_counts = some t →
        df.get "country_region" = some (Val.str s) →
        lookupTable t (Val.str s) = none →
        (encode_categorical m df).bind (fun d => d.get "country_region_freq")
          = some (Val.num 1)) := by
  obtain ⟨d1, hp⟩ := platformStep_of_encode_isSome m df hs
  have hcountry : ∀ t s, m.country_value_counts = some t →
      df.get "country" = some (Val.str s) →
      (encode_categorical m df).bind (fun d => d.get "country_freq")
        = some (Val.num ((lookupTable t (Val.str s)).getD 1)) := by
    intro t s ht hv
    rw [encode_bind m df d1 _ hp]
    exact encodeTables_country_freq m d1 t (Val.str s) ht
      (by rw [platformStep_get_ne df d1 _ (by decide) hp]; exact hv)
  have hdevice : ∀ t s, m.device_family_value_counts = some t →
      df.get "device_family" = some (Val.str s) →
      (encode_categorical m df).bind (fun d => d.get "device_family_freq")
        = some (Val.num ((lookupTable t (Val.str s)).getD 1)) := by
    intro t s ht hv
    rw [encode_bind m df d1 _ hp]
    exact encodeTables_device_freq m d1 t (Val.str s) ht
      (by rw [platformStep_get_ne df d1 _ (by decide) hp]; exact hv)
  have hregion : ∀ t s, m.country_region_value_counts = some t →
      df.get "country_region" = some (Val.str s) →
      (encode_categorical m df).bind (fun d => d.get "country_region_freq")
        = some (Val.num ((lookupTable t (Val.str s)).getD 1)) := by
    intro t s ht hv
    rw [encode_bind m df d1 _ hp]
    exact encodeTables_region_freq m d1 t (Val.str s) ht
      (by rw [platformStep_get_ne df d1 _ (by decide) hp]; exact hv)
  refine ⟨fun t s q ht hv hq => ?_, fun t s ht hv hq => ?_,
    fun t s q ht hv hq => ?_, fun t s ht hv hq => ?_,
    fun t s q ht hv hq => ?_, fun t s ht hv hq => ?_⟩
  · rw [hcountry t s ht hv, hq]
    rfl
  · rw [hcountry t s ht hv, hq]
    rfl
  · rw [hdevice t s ht hv, hq]
    rfl
  · rw [hdevice t s ht hv, hq]
    rfl
  · rw [hregion t s ht hv, hq]
    rfl
  · rw [hregion t s ht hv, hq]
    rfl

def c8meta : Metadata :=
  Metadata.mk [] (some [("es", 5)]) (some [("Apple iPhone", 7)]) (some [("Madrid", 9)]) none

def c8input : Row :=
  [("country", Val.str "es"), ("device_family", Val.str "unknown_device"),
   ("country_region", Val.str "Madrid")]

/-- C8 witness: on a concrete record, a known country gets its stored count
`5`, an unknown device family gets the default `1`, and a known region gets
its stored count `9`. -/
theorem claim_C8_witness :
    ((encode_categorical c8meta c8input).bind (fun d => d.get "country_freq")
      = some (Val.num 5))
    ∧ ((encode_categorical c8meta c8input).bind (fun d => d.get "device_family_freq")
      = some (Val.num 1))
    ∧ ((encode_categorical c8meta c8input).bind (fun d => d.get "country_region_freq")
      = some (Val.num 9)) := by
  have h := claim_C8_frequency_encoding c8meta c8input (by decide)
  exact ⟨h.1 [("es", 5)] "es" 5 rfl rfl rfl,
    h.2.2.2.1 [("Apple iPhone", 7)] "unknown_device" rfl rfl rfl,
    h.2.2.2.2.1 [("Madrid", 9)] "Madrid" 9 rfl rfl rfl⟩

/-- C5: the `country_mean_revenue` feature is the stored per-country mean
for a country present in the table, and for an absent country it is the
arithmetic mean of all values of the (non-empty) table, recomputed from the
table at encode time. -/
theorem claim_C5_target_encoding (m : Metadata) (df : Row)
    (hs : (encode_categorical m df).isSome = true) :
    (∀ t s q, m.country_mean_revenue = some t → df.get "country" = some (Val.str s) →
        lookupTable t (Val.str s) = some q →
        (encode_categorical m df).bind (fun d => d.get "country_mean_revenue")
          = some (Val.num q))
    ∧ (∀ t s, m.country_mean_revenue = some t → df.get "country" = some (Val.str s) →
        lookupTable t (Val.str s) = none → t ≠ [] →
        (encode_categorical m df).bind (fun d => d.get "country_mean_revenue")
          = some (Val.num ((t.map (fun p => p.2)).sum / t.length))) := by
  obtain ⟨d1, hp⟩ := platformStep_of_encode_isSome m df hs
  have hcmr : ∀ t s, m.country_mean_revenue = some t →
      df.get "country" = some (Val.str s) →
      (encode_categorical m df).bind (fun d => d.get "country_mean_revenue")
        = some (match lookupTable t (Val.str s) with
                | some q => Val.num q
                | none => globalMean t) := by
    intro t s ht hv
    rw [encode_bind m df d1 _ hp]
    exact encodeTables_cmr m d1 t (Val.str s) ht
      (by rw [platformStep_get_ne df d1 _ (by decide) hp]; exact hv)
  constructor
  · intro t s q ht hv hq
    rw [hcmr t s ht hv, hq]
  · intro t s ht hv hq hne
    rw [hcmr t s ht hv, hq]
    have hb : t.isEmpty = false := by
      rcases hE : t.isEmpty
      · rfl
      · exact absurd (List.isEmpty_iff.mp hE) hne
    simp [globalMean, hb]

def c5meta : Metadata := Metadata.mk [] none none none (some [("es", 1/5), ("us", 3/10)])

def c5input : Row :=
  [("country", Val.str "xx"), ("source", Val.str "Organic"), ("platform", Val.str "iOS"),
   ("event_1", Val.num 0), ("event_2", Val.num 0), ("event_3", Val.null)]

/-- C5 witness: the spec's scenario — table `{es: 0.2, us: 0.3}` and unseen
country `"xx"` — yields exactly `0.25`. -/
theorem claim_C5_witness :
    (encode_categorical c5meta c5input).bind (fun d => d.get "country_mean_revenue")
      = some (Val.num (1 / 4)) := by
  have h := (claim_C5_target_encoding c5meta c5input (by decide)).2
    [("es", 1/5), ("us", 3/10)] "xx" rfl rfl rfl (by decide)
  rw [h]
  norm_num

/-- C6: label encoding maps a vocabulary string to its fixed non-negative
code and any other string to exactly `-1`; the `platform` cell is
lower-cased by `encode_categorical` before `transform` looks it up, so its
encoding depends only on the lower-cased string. -/
theorem claim_C6_label_encoding :
    (∀ (classes : List String) (s : String), s ∈ classes →
        labelEncode classes (Val.str s) = Val.num (classes.indexOf s)
        ∧ (0 : ℚ) ≤ (classes.indexOf s : ℚ))
    ∧ (∀ (classes : List String) (s : String), s ∉ classes →
        labelEncode classes (Val.str s) = Val.num (-1))
    ∧ (∀ (m : Metadata) (df : Row) (s : String), df.get "platform" = some (Val.str s) →
        (encode_categorical m df).bind (fun d => d.get "platform")
          = some (Val.str (strLower s)))
    ∧ (∀ (m : Metadata) (df : Row) (ls : Option (List String)) (classes : List String)
        (s : String), df.get "platform" = some (Val.str s) →
        (encode_categorical m df).bind
            (fun d => (applyLabelEncoders ls (some classes) d).get "platform_encoded")
          = some (labelEncode classes (Val.str (strLower s))))
    ∧ (∀ (classes : List String) (lp : Option (List String)) (df : Row) (v : Val),
        df.get "source" = some v →
        (applyLabelEncoders (some classes) lp df).get "source_encoded"
          = some (labelEncode classes v)) := by
  refine ⟨fun classes s h => ?_, fun classes s h => ?_, fun m df s h => ?_,
    fun m df ls classes s h => ?_, fun classes lp df v h => ?_⟩
  · exact ⟨by simp [labelEncode, h], Nat.cast_nonneg _⟩
  · simp [labelEncode, h]
  · have hp : platformStep df = some (df.set "platform" (Val.str (strLower s))) := by
      unfold platformStep
      rw [h]
    rw [encode_bind m df _ _ hp, encodeTables_get_platform, Row.get_set_self]
  · have hp : platformStep df = some (df.set "platform" (Val.str (strLower s))) := by
      unfold platformStep
      rw [h]
    rw [encode_bind m df _ _ hp]
    apply applyLabelEncoders_platform_encoded
    rw [encodeTables_get_platform, Row.get_set_self]
  · exact applyLabelEncoders_source_encoded lp classes df v h

def c6meta : Metadata := Metadata.mk [] none none none none

def c6input : Row := [("source", Val.str "Organic"), ("platform", Val.str "iOS")]

def c6input2 : Row := [("source", Val.str "Organic"), ("platform", Val.str "IOS")]

/-- C6 witness: `"ios"` in the vocabulary `["android", "ios"]` encodes to its
code `1` for both spellings `"iOS"` and `"IOS"` of the raw platform, an
unseen string encodes to `-1`, and the known source `"Organic"` gets code
`0`. -/
theorem claim_C6_witness :
    labelEncode ["Organic", "Paid"] (Val.str "Unknown") = Val.num (-1)
    ∧ ((encode_categorical c6meta c6input).bind (fun d => d.get "platform")
        = some (Val.str "ios"))
    ∧ ((encode_categorical c6meta c6input).bind
          (fun d => (applyLabelEncoders none (some ["android", "ios"]) d).get
            "platform_encoded") = some (Val.num 1))
    ∧ ((encode_categorical c6meta c6input2).bind
          (fun d => (applyLabelEncoders none (some ["android", "ios"]) d).get
            "platform_encoded") = some (Val.num 1))
    ∧ ((applyLabelEncoders (some ["Organic", "Paid"]) none c6input).get "source_encoded"
        = some (Val.num 0)) := by
  have h := claim_C6_label_encoding
  have hlower : strLower "iOS" = "ios" := rfl
  have hlower2 : strLower "IOS" = "ios" := rfl
  have hcode : labelEncode ["android", "ios"] (Val.str "ios") = Val.num 1 := by
    have hidx : (["android", "ios"].indexOf "ios") = 1 := rfl
    simp [labelEncode, hidx]
  have hsrc : labelEncode ["Organic", "Paid"] (Val.str "Organic") = Val.num 0 := by
    have hidx : (["Organic", "Paid"].indexOf "Organic") = 0 := rfl
    simp [labelEncode, hidx]
  refine ⟨h.2.1 _ _ (by decide), ?_, ?_, ?_, ?_⟩
  · rw [h.2.2.1 c6meta c6input "iOS" rfl, hlower]
  · rw [h.2.2.2.1 c6meta c6input none ["android", "ios"] "iOS" rfl, hlower, hcode]
  · rw [h.2.2.2.1 c6meta c6input2 none ["android", "ios"] "IOS" rfl, hlower2, hcode]
  · rw [h.2.2.2.2 ["Organic", "Paid"] none c6input (Val.str "Organic") rfl, hsrc]

end RevPred
